import Mathlib

/-!
Shallow embedding of the shortcut-recorder hook
(src/constants.ts, src/utils.ts, src/hook.ts) and proofs about it.

JavaScript `Set<string>` values are modelled as duplicate-free
`List String` in insertion order: `add` appends when absent, `delete`
erases, `has` is membership, `size` is length.  JavaScript numbers used
for the modifier-count configuration are modelled as `Int`.
-/

/-- Display order of the canonical modifiers (constants.ts MOD_KEYS_ORDER). -/
def MOD_KEYS_ORDER : List String := ["Control", "Shift", "Alt", "Meta"]

/-- The normalization table (constants.ts MOD_KEYS_MAP):
`none` for identifiers that are not modifier keys. -/
def MOD_KEYS_MAP (key : String) : Option String :=
  if key = "ControlLeft" then some "Control"
  else if key = "ControlRight" then some "Control"
  else if key = "ShiftLeft" then some "Shift"
  else if key = "ShiftRight" then some "Shift"
  else if key = "AltLeft" then some "Alt"
  else if key = "AltRight" then some "Alt"
  else if key = "MetaLeft" then some "Meta"
  else if key = "MetaRight" then some "Meta"
  else if key = "Control" then some "Control"
  else if key = "Meta" then some "Meta"
  else if key = "Shift" then some "Shift"
  else if key = "Alt" then some "Alt"
  else none

/-- The twelve raw identifiers recognized as modifier keys. -/
def MOD_KEY_CODES : List String :=
  ["ControlLeft", "ControlRight", "ShiftLeft", "ShiftRight",
   "AltLeft", "AltRight", "MetaLeft", "MetaRight",
   "Control", "Meta", "Shift", "Alt"]

/-- utils.ts `isModKey`: membership in the normalization table. -/
def isModKey (key : String) : Bool := (MOD_KEYS_MAP key).isSome

/-- The lookup `MOD_KEYS_MAP[key]` as used at call sites guarded by
`isModKey` (the default value is never reached under that guard). -/
def canonMod (key : String) : String := (MOD_KEYS_MAP key).getD key

/-- JavaScript `Set.add` on the list model: append when absent. -/
def jsAdd (s : List String) (x : String) : List String :=
  if s.contains x then s else s ++ [x]

/-- utils.ts `getOrderedKeys`: push the present modifiers in MOD_KEYS_ORDER
order, then push the trigger key when it is truthy (non-empty). -/
def getOrderedKeys (nonModKey : String) (modKeys : List String) : List String :=
  (MOD_KEYS_ORDER.foldl
    (fun orderedKeys modifier =>
      if modKeys.contains modifier then orderedKeys ++ [modifier] else orderedKeys)
    [])
  ++ (if nonModKey = "" then [] else [nonModKey])

/-- JavaScript `String.prototype.replace` with a plain-string pattern:
replace the first occurrence only (character-list worker). -/
def replaceFirst (pat rep : List Char) : List Char → List Char
  | [] => []
  | c :: cs =>
    if pat.isPrefixOf (c :: cs) then rep ++ (c :: cs).drop pat.length
    else c :: replaceFirst pat rep cs

/-- JavaScript first-occurrence string replace. -/
def jsReplace (s pat rep : String) : String :=
  String.mk (replaceFirst pat.data rep.data s.data)

inductive ShortcutRecorderErrorCode where
  | NONE
  | MAX_MOD_KEYS_EXCEEDED
  | MOD_KEY_NOT_ALLOWED
  | KEY_NOT_ALLOWED
  | MIN_MOD_KEYS_REQUIRED
  | SHORTCUT_NOT_ALLOWED
deriving DecidableEq, Repr

open ShortcutRecorderErrorCode in
/-- constants.ts ERROR_MESSAGES (braces written as escapes). -/
def ERROR_MESSAGES : ShortcutRecorderErrorCode → String
  | NONE => ""
  | MAX_MOD_KEYS_EXCEEDED => "Maximum \x7bmaxModKeys\x7d modifier key(s) allowed"
  | MOD_KEY_NOT_ALLOWED => "Modifier Key \"\x7bmodKey\x7d\" is not allowed"
  | KEY_NOT_ALLOWED => "Key \"\x7bkeycode\x7d\" is not allowed"
  | MIN_MOD_KEYS_REQUIRED => "Minimum \x7bminModKeys\x7d modifier key(s) required"
  | SHORTCUT_NOT_ALLOWED => "Key combination \"\x7bshortcut\x7d\" not allowed"

structure ShortcutRecorderError where
  code : ShortcutRecorderErrorCode
  message : String
deriving DecidableEq, Repr

/-- utils.ts `getFormattedError`: substitute each named placeholder. -/
def getFormattedError (code : ShortcutRecorderErrorCode)
    (params : List (String × String)) : ShortcutRecorderError :=
  { code := code
    message := params.foldl
      (fun m p => jsReplace m ("\x7b" ++ p.1 ++ "\x7d") p.2)
      (ERROR_MESSAGES code) }

/-- The neutral error value. -/
def noError : ShortcutRecorderError := { code := .NONE, message := "" }

/-- hook.ts configuration options with their default values. -/
structure ShortcutRecorderOptions where
  excludedShortcuts : List (List String) := [[]]
  excludedModKeys : List String := []
  excludedKeys : List String := []
  minModKeys : Int := 0
  maxModKeys : Int := 4
deriving Repr

/-- hook.ts line 21: clamp maxModKeys into [0,4], defaulting to 4. -/
def clampMax (maxModKeys : Int) : Int :=
  if maxModKeys < 0 ∨ maxModKeys > 4 then 4 else maxModKeys

/-- hook.ts line 22: clamp minModKeys into [0, clamped max], defaulting to 0. -/
def clampMin (minModKeys maxClamped : Int) : Int :=
  if minModKeys < 0 ∨ minModKeys > 4 ∨ minModKeys > maxClamped then 0 else minModKeys

/-- The loop body of the excluded-shortcut entry compiler (hook.ts 43-63),
with the running counters as explicit state and early returns as `none`. -/
def compileEntryGo (exMods exKeys : List String) (minM maxM : Int) :
    List String → Nat → List String → String → Option String
  | [], numNonModKeys, modKeyList, nonModKey =>
    if (modKeyList.length : Int) < minM ∨ numNonModKeys ≠ 1 then none
    else some (String.join (getOrderedKeys nonModKey modKeyList))
  | key :: rest, numNonModKeys, modKeyList, nonModKey =>
    if isModKey key then
      if exMods.contains (canonMod key) ∨ (modKeyList.length : Int) > maxM then none
      else compileEntryGo exMods exKeys minM maxM rest numNonModKeys
        (jsAdd modKeyList (canonMod key)) nonModKey
    else
      if exKeys.contains key ∨ numNonModKeys + 1 > 1 then none
      else compileEntryGo exMods exKeys minM maxM rest (numNonModKeys + 1) modKeyList key

/-- One excluded-shortcut entry compiled to its comparison string, or `none`
when the entry is dropped. -/
def compileEntry (exMods exKeys : List String) (minM maxM : Int)
    (entry : List String) : Option String :=
  compileEntryGo exMods exKeys minM maxM entry 0 [] ""

/-- hook.ts lines 35-37: canonicalized, deduplicated excluded modifiers. -/
def compileExcludedModKeysSet (opts : ShortcutRecorderOptions) : List String :=
  ((opts.excludedModKeys.filter (fun key => isModKey key)).map canonMod).foldl jsAdd []

/-- hook.ts lines 39-41: excluded non-modifier keys. -/
def compileExcludedKeysSet (opts : ShortcutRecorderOptions) : List String :=
  (opts.excludedKeys.filter (fun key => ! isModKey key)).foldl jsAdd []

/-- The compiled exclusion policy of one hook configuration. -/
structure Policy where
  excludedModKeysSet : List String
  excludedKeysSet : List String
  excludedShortcutsSet : List String
  minModKeys : Int
  maxModKeys : Int
  isMac : Bool
deriving Repr

/-- hook.ts lines 21-72: clamping, set compilation, excluded-shortcut
compilation, and the degenerate-policy guard (lines 66-70), which clears the
excluded-modifier set after the shortcut set was already built from it. -/
def compilePolicy (opts : ShortcutRecorderOptions) (isMac : Bool) : Policy :=
  let maxC := clampMax opts.maxModKeys
  let minC := clampMin opts.minModKeys maxC
  let exMods0 := compileExcludedModKeysSet opts
  let exKeys := compileExcludedKeysSet opts
  let exShortcuts := opts.excludedShortcuts.flatMap
    (fun entry => (compileEntry exMods0 exKeys minC maxC entry).toList)
  let numUsableModKeys : Int := (MOD_KEYS_ORDER.length : Int) - (exMods0.length : Int)
  let exMods := if numUsableModKeys < minC then [] else exMods0
  { excludedModKeysSet := exMods
    excludedKeysSet := exKeys
    excludedShortcutsSet := exShortcuts
    minModKeys := minC
    maxModKeys := maxC
    isMac := isMac }

/-- hook.ts `isValidShortcut` (lines 165-204) as a pure function of the
policy and the state it reads; the second component is the error it sets
via `setError`, when any. -/
def isValidShortcut (p : Policy) (activeModKeys : List String)
    (activeNonModKey : String) (shortcut : List String) :
    Bool × Option ShortcutRecorderError :=
  let numModKeys : Int := activeModKeys.length
  if numModKeys < p.minModKeys then
    (false, some (getFormattedError .MIN_MOD_KEYS_REQUIRED
      [("minModKeys", toString p.minModKeys)]))
  else if numModKeys > p.maxModKeys then
    (false, some (getFormattedError .MAX_MOD_KEYS_EXCEEDED
      [("maxModKeys", toString p.maxModKeys)]))
  else
    let shortcutStr := String.join (getOrderedKeys activeNonModKey activeModKeys)
    if p.excludedShortcutsSet.contains shortcutStr then
      (false, some (getFormattedError .SHORTCUT_NOT_ALLOWED
        [("shortcut", String.intercalate "," shortcut)]))
    else
      match activeModKeys.find? (fun key => p.excludedModKeysSet.contains key) with
      | some key =>
        (false, some (getFormattedError .MOD_KEY_NOT_ALLOWED [("modKey", key)]))
      | none =>
        if activeNonModKey = "" then
          (false,
            if p.excludedKeysSet.contains activeNonModKey then
              some (getFormattedError .KEY_NOT_ALLOWED [("keycode", activeNonModKey)])
            else none)
        else (true, none)

/-- The caller-visible hook state (the six useState cells of hook.ts). -/
structure RecorderState where
  shortcut : List String
  savedShortcut : List String
  isRecording : Bool
  error : ShortcutRecorderError
  activeModKeys : List String
  activeNonModKey : String
deriving DecidableEq, Repr

/-- A single `set...` call made by the hook. -/
inductive Eff where
  | setShortcut (v : List String)
  | setSavedShortcut (v : List String)
  | setIsRecording (b : Bool)
  | setError (e : ShortcutRecorderError)
  | setActiveModKeys (m : List String)
  | setActiveNonModKey (k : String)
deriving DecidableEq, Repr

def applyEff (s : RecorderState) : Eff → RecorderState
  | .setShortcut v => { s with shortcut := v }
  | .setSavedShortcut v => { s with savedShortcut := v }
  | .setIsRecording b => { s with isRecording := b }
  | .setError e => { s with error := e }
  | .setActiveModKeys m => { s with activeModKeys := m }
  | .setActiveNonModKey k => { s with activeNonModKey := k }

def applyEffs (s : RecorderState) (effs : List Eff) : RecorderState :=
  effs.foldl applyEff s

/-- hook.ts `resetRecording` (lines 218-222) as its list of set calls. -/
def resetRecordingEffs : List Eff :=
  [.setShortcut [], .setActiveModKeys [], .setActiveNonModKey ""]

/-- hook.ts `stopRecording` (lines 239-246). -/
def stopRecordingEffs : List Eff :=
  resetRecordingEffs ++ [.setIsRecording false, .setError noError]

/-- hook.ts `updateShortcutFromActiveKeys` (lines 207-216). -/
def updateShortcutFromActiveKeys (modKeys : List String) (nonModKey : String) :
    List Eff :=
  if modKeys.isEmpty ∧ nonModKey = "" then resetRecordingEffs
  else [.setShortcut (getOrderedKeys nonModKey modKeys)]

/-!
Event semantics.  A key handler built in the render that committed state
`s0` reads `s0` through its closures; the two functional updaters it
enqueues receive the committed value of their own cell, and every plain
`set` call issued while an updater runs lands in the queues after both
updaters.  The net state after the React flush is therefore: first the
two updater return values replace `activeModKeys` and `activeNonModKey`,
then the collected `set` calls of phase 1 and phase 2 apply in order.
-/

/-- The `setActiveModKeys` updater of `handleKeyDown` (hook.ts 88-106):
result value and the set calls it issues. -/
def keyDownModsPhase (p : Policy) (s0 : RecorderState) (keycode : String) :
    List String × List Eff :=
  if isModKey keycode then
    let modKey := canonMod keycode
    if ! p.excludedModKeysSet.contains modKey then
      if (s0.activeModKeys.length : Int) ≥ p.maxModKeys then
        (s0.activeModKeys,
          [.setError (getFormattedError .MAX_MOD_KEYS_EXCEEDED
            [("maxModKeys", toString p.maxModKeys)])]
          ++ updateShortcutFromActiveKeys s0.activeModKeys s0.activeNonModKey)
      else
        let newModKeys := jsAdd s0.activeModKeys modKey
        (newModKeys, updateShortcutFromActiveKeys newModKeys s0.activeNonModKey)
    else
      (s0.activeModKeys,
        [.setError (getFormattedError .MOD_KEY_NOT_ALLOWED [("modKey", modKey)])]
        ++ updateShortcutFromActiveKeys s0.activeModKeys s0.activeNonModKey)
  else
    (s0.activeModKeys, updateShortcutFromActiveKeys s0.activeModKeys s0.activeNonModKey)

/-- The `setActiveNonModKey` updater of `handleKeyDown` (hook.ts 108-120). -/
def keyDownNonModPhase (p : Policy) (s0 : RecorderState) (keycode : String) :
    String × List Eff :=
  if ! isModKey keycode then
    if ! p.excludedKeysSet.contains keycode then
      (keycode, updateShortcutFromActiveKeys s0.activeModKeys keycode)
    else
      (s0.activeNonModKey,
        [.setError (getFormattedError .KEY_NOT_ALLOWED [("keycode", keycode)])])
  else (s0.activeNonModKey, [])

/-- hook.ts `handleKeyDown` (lines 74-121). -/
def handleKeyDown (p : Policy) (s0 : RecorderState) (keycode : String) :
    RecorderState :=
  if ! s0.isRecording then s0
  else if keycode = "" then s0
  else if keycode = "Escape" then applyEffs s0 stopRecordingEffs
  else
    let r1 := keyDownModsPhase p s0 keycode
    let r2 := keyDownNonModPhase p s0 keycode
    applyEffs { s0 with activeModKeys := r1.1, activeNonModKey := r2.1 }
      (r1.2 ++ r2.2)

/-- The `setActiveModKeys` updater of `handleKeyUp` (hook.ts 134-150),
including the Mac-specific Meta-release early finalization. -/
def keyUpModsPhase (p : Policy) (s0 : RecorderState) (keycode : String) :
    List String × List Eff :=
  if isModKey keycode && ! p.excludedModKeysSet.contains (canonMod keycode) then
    if p.isMac && (canonMod keycode == "Meta") then
      match isValidShortcut p s0.activeModKeys s0.activeNonModKey s0.shortcut with
      | (true, _) =>
        (s0.activeModKeys, [.setSavedShortcut s0.shortcut] ++ stopRecordingEffs)
      | (false, errOpt) =>
        let newModKeys := s0.activeModKeys.erase (canonMod keycode)
        (newModKeys,
          (errOpt.toList.map Eff.setError)
          ++ updateShortcutFromActiveKeys newModKeys s0.activeNonModKey)
    else
      let newModKeys := s0.activeModKeys.erase (canonMod keycode)
      (newModKeys, updateShortcutFromActiveKeys newModKeys s0.activeNonModKey)
  else
    (s0.activeModKeys, updateShortcutFromActiveKeys s0.activeModKeys s0.activeNonModKey)

/-- The `setActiveNonModKey` updater of `handleKeyUp` (hook.ts 152-162). -/
def keyUpNonModPhase (p : Policy) (s0 : RecorderState) (keycode : String) :
    String × List Eff :=
  if (! isModKey keycode) && (! p.excludedKeysSet.contains keycode)
      && (s0.activeNonModKey == "" || s0.activeNonModKey == keycode)
      && (! s0.shortcut.isEmpty) then
    match isValidShortcut p s0.activeModKeys s0.activeNonModKey s0.shortcut with
    | (true, errOpt) =>
      ("", (errOpt.toList.map Eff.setError)
        ++ [.setSavedShortcut s0.shortcut] ++ stopRecordingEffs)
    | (false, errOpt) => ("", errOpt.toList.map Eff.setError)
  else (s0.activeNonModKey, [])

/-- hook.ts `handleKeyUp` (lines 123-163). -/
def handleKeyUp (p : Policy) (s0 : RecorderState) (keycode : String) :
    RecorderState :=
  if ! s0.isRecording then s0
  else if keycode = "" then s0
  else if keycode = "Escape" then s0
  else
    let r1 := keyUpModsPhase p s0 keycode
    let r2 := keyUpNonModPhase p s0 keycode
    applyEffs { s0 with activeModKeys := r1.1, activeNonModKey := r2.1 }
      (r1.2 ++ r2.2)

/-- hook.ts `startRecording` (lines 230-237). -/
def startRecording (s : RecorderState) : RecorderState :=
  applyEffs s ([.setIsRecording true, .setError noError] ++ resetRecordingEffs)

/-- hook.ts `stopRecording` (lines 239-246). -/
def stopRecording (s : RecorderState) : RecorderState :=
  applyEffs s stopRecordingEffs

/-- hook.ts `resetRecording` (lines 218-222) as a state operation. -/
def resetRecordingOp (s : RecorderState) : RecorderState :=
  applyEffs s resetRecordingEffs

/-- hook.ts `clearLastRecording` (lines 224-228). -/
def clearLastRecording (s : RecorderState) : RecorderState :=
  applyEffs s (stopRecordingEffs ++ [.setSavedShortcut []])

/-- The initial hook state. -/
def initialState : RecorderState :=
  { shortcut := [], savedShortcut := [], isRecording := false,
    error := noError, activeModKeys := [], activeNonModKey := "" }

/-! Helper lemmas about the ordering component. -/

lemma foldl_push_filter (m : List String) :
    ∀ (l acc : List String),
      l.foldl (fun a x => if m.contains x then a ++ [x] else a) acc
        = acc ++ l.filter (fun x => m.contains x)
  | [], acc => by simp
  | x :: l, acc => by
    rw [List.foldl_cons, List.filter_cons]
    by_cases h : m.contains x
    · rw [if_pos h, if_pos h, foldl_push_filter m l (acc ++ [x]), List.append_assoc]
      rfl
    · rw [if_neg h, if_neg h, foldl_push_filter m l acc]

lemma getOrderedKeys_eq_filter (t : String) (m : List String) :
    getOrderedKeys t m
      = MOD_KEYS_ORDER.filter (fun x => m.contains x)
        ++ (if t = "" then [] else [t]) := by
  unfold getOrderedKeys
  rw [foldl_push_filter]
  simp

/-- The four possible presence patterns of the canonical modifiers. -/
def modBools (b1 b2 b3 b4 : Bool) : List String :=
  (if b1 then ["Control"] else []) ++ (if b2 then ["Shift"] else [])
    ++ (if b3 then ["Alt"] else []) ++ (if b4 then ["Meta"] else [])

lemma filter_order_eq_modBools (f : String → Bool) :
    MOD_KEYS_ORDER.filter f = modBools (f "Control") (f "Shift") (f "Alt") (f "Meta") := by
  unfold MOD_KEYS_ORDER modBools
  cases h1 : f "Control" <;> cases h2 : f "Shift" <;> cases h3 : f "Alt" <;>
    cases h4 : f "Meta" <;>
    simp [List.filter_cons, List.filter_nil, h1, h2, h3, h4]

lemma modBools_join_inj : ∀ a1 a2 a3 a4 b1 b2 b3 b4 : Bool,
    String.join (modBools a1 a2 a3 a4) = String.join (modBools b1 b2 b3 b4) →
    modBools a1 a2 a3 a4 = modBools b1 b2 b3 b4 := by decide

lemma join_right_cancel (l1 l2 tr : List String)
    (h : String.join (l1 ++ tr) = String.join (l2 ++ tr)) :
    String.join l1 = String.join l2 := by
  have h' := congrArg String.data h
  simp only [String.data_join, List.map_append, List.flatten_append] at h'
  exact String.ext (by simpa [String.data_join] using List.append_cancel_right h')

lemma isModKey_iff (k : String) : isModKey k = true ↔ k ∈ MOD_KEY_CODES := by
  constructor
  · intro h
    by_contra hmem
    simp only [ MOD_KEY_CODES, List.mem_cons, List.not_mem_nil, or_false,
      not_or] at hmem
    obtain ⟨n1, n2, n3, n4, n5, n6, n7, n8, n9, n10, n11, n12⟩ := hmem
    unfold isModKey MOD_KEYS_MAP at h
    rw [if_neg n1, if_neg n2, if_neg n3, if_neg n4, if_neg n5, if_neg n6,
        if_neg n7, if_neg n8, if_neg n9, if_neg n10, if_neg n11, if_neg n12] at h
    simp at h
  · intro h
    simp only [ MOD_KEY_CODES, List.mem_cons, List.not_mem_nil, or_false] at h
    rcases h with rfl | rfl | rfl | rfl | rfl | rfl | rfl | rfl | rfl | rfl | rfl | rfl
      <;> decide

lemma canonMod_mem (k : String) (h : isModKey k = true) :
    canonMod k ∈ MOD_KEYS_ORDER := by
  have hk := (isModKey_iff k).mp h
  simp only [ MOD_KEY_CODES, List.mem_cons, List.not_mem_nil, or_false] at hk
  rcases hk with rfl | rfl | rfl | rfl | rfl | rfl | rfl | rfl | rfl | rfl | rfl | rfl
    <;> decide

/-- Claim C4: the key classifier is total, every recognized identifier maps to
one of the four canonical modifier names, unrecognized identifiers are exactly
those outside the twelve-entry table, and all left/right variants and bare
aliases of one modifier collapse to the same canonical name. -/
theorem key_classifier_canonical (k : String) :
    (isModKey k = true ↔ k ∈ MOD_KEY_CODES) ∧
    (isModKey k = true → canonMod k ∈ MOD_KEYS_ORDER) ∧
    (canonMod "ControlLeft" = "Control" ∧ canonMod "ControlRight" = "Control"
      ∧ canonMod "Control" = "Control") ∧
    (canonMod "ShiftLeft" = "Shift" ∧ canonMod "ShiftRight" = "Shift"
      ∧ canonMod "Shift" = "Shift") ∧
    (canonMod "AltLeft" = "Alt" ∧ canonMod "AltRight" = "Alt"
      ∧ canonMod "Alt" = "Alt") ∧
    (canonMod "MetaLeft" = "Meta" ∧ canonMod "MetaRight" = "Meta"
      ∧ canonMod "Meta" = "Meta") := by
  exact ⟨isModKey_iff k, canonMod_mem k, by decide, by decide, by decide, by decide⟩

/-- Claim C4 witness at a concrete identifier. -/
theorem key_classifier_canonical_witness :
    canonMod "ControlRight" ∈ MOD_KEYS_ORDER :=
  (key_classifier_canonical "ControlRight").2.1 (by decide)

/-- Claim C7: the ordering function is pure and total, invariant under any
re-insertion order of the modifier set (it depends only on membership), and
lists exactly the members of the modifier set in the fixed priority order
Control, Shift, Alt, Meta followed by the trigger token when present. -/
theorem ordered_keys_spec (t : String) (m m' : List String) :
    ((∀ x, x ∈ m ↔ x ∈ m') → getOrderedKeys t m = getOrderedKeys t m') ∧
    ((∀ x ∈ m, x ∈ MOD_KEYS_ORDER) →
      ∀ x, x ∈ getOrderedKeys t m ↔ x ∈ m ∨ (t ≠ "" ∧ x = t)) ∧
    getOrderedKeys t m
      = MOD_KEYS_ORDER.filter (fun x => m.contains x)
        ++ (if t = "" then [] else [t]) := by
  refine ⟨?_, ?_, getOrderedKeys_eq_filter t m⟩
  · intro h
    rw [getOrderedKeys_eq_filter, getOrderedKeys_eq_filter]
    have hcc : ∀ x ∈ MOD_KEYS_ORDER, m.contains x = m'.contains x := by
      intro x _
      by_cases hx : x ∈ m
      · show List.elem x m = List.elem x m'
        rw [List.elem_eq_true_of_mem hx, List.elem_eq_true_of_mem ((h x).mp hx)]
      · have hx' : x ∉ m' := fun hmem => hx ((h x).mpr hmem)
        simp only [List.elem_iff] at *
        simp [hx, hx']
    rw [List.filter_congr hcc]
  · intro hsub x
    rw [getOrderedKeys_eq_filter]
    simp only [List.mem_append, List.mem_filter]
    constructor
    · rintro (⟨_, hx⟩ | hx)
      · exact Or.inl (List.elem_iff.mp hx)
      · by_cases ht : t = "" <;> simp_all
    · rintro (hx | ⟨ht, rfl⟩)
      · exact Or.inl ⟨hsub x hx, List.elem_iff.mpr hx⟩
      · simp [ht]

/-- Claim C7 witness: insertion order of the modifier set does not matter. -/
theorem ordered_keys_spec_witness :
    getOrderedKeys "KeyQ" ["Alt", "Control"]
      = getOrderedKeys "KeyQ" ["Control", "Alt", "Control"] :=
  (ordered_keys_spec "KeyQ" ["Alt", "Control"] ["Control", "Alt", "Control"]).1
    (by intro x; simp [List.mem_cons]; tauto)

/-- Claim C5 counterexample: the comparison string does not respect shortcut
identity.  The pair (modifiers {Meta}, trigger "X") and the pair
(no modifiers, trigger "MetaX") have distinct canonical ordered sequences but
the same comparison string, and the excluded-combination lookup therefore
flags the live shortcut Meta+X when only the single key "MetaX" was excluded. -/
theorem comparison_key_collision :
    String.join (getOrderedKeys "X" ["Meta"]) = String.join (getOrderedKeys "MetaX" [])
    ∧ getOrderedKeys "X" ["Meta"] ≠ getOrderedKeys "MetaX" []
    ∧ ((isValidShortcut (compilePolicy { excludedShortcuts := [["MetaX"]] } false)
        ["Meta"] "X" ["Meta", "X"]).2.map (fun e => e.code)
          = some .SHORTCUT_NOT_ALLOWED) := by
  refine ⟨by decide, by decide, ?_⟩
  decide

/-- Claim C5 as amended: for two (modifier-set, trigger) pairs with the same
trigger token, the comparison strings are equal iff the canonical ordered
sequences are element-wise equal; with different trigger tokens distinct
sequences can collide. -/
theorem comparison_key_same_trigger (t : String) (m1 m2 : List String) :
    String.join (getOrderedKeys t m1) = String.join (getOrderedKeys t m2)
      ↔ getOrderedKeys t m1 = getOrderedKeys t m2 := by
  constructor
  · intro h
    rw [getOrderedKeys_eq_filter, getOrderedKeys_eq_filter] at h ⊢
    have hm := join_right_cancel _ _ _ h
    rw [filter_order_eq_modBools, filter_order_eq_modBools] at hm ⊢
    rw [modBools_join_inj _ _ _ _ _ _ _ _ hm]
  · intro h
    rw [h]


/-- Claim C1: for every compiled configuration, validation at release time
fails with MIN_MOD_KEYS_REQUIRED iff the active-modifier count is below
minModKeys, with MAX_MOD_KEYS_EXCEEDED iff it exceeds maxModKeys and the
min rule did not already fire, and the five checks (min, max, excluded
combination, excluded modifier, missing trigger) run in that fixed order
with the first violated rule determining the reported error. -/
theorem validation_order (opts : ShortcutRecorderOptions) (mac : Bool)
    (mods : List String) (nonMod : String) (sh : List String) :
    let p := compilePolicy opts mac
    let r := isValidShortcut p mods nonMod sh
    let v1 := (mods.length : Int) < p.minModKeys
    let v2 := (mods.length : Int) > p.maxModKeys
    let v3 := String.join (getOrderedKeys nonMod mods) ∈ p.excludedShortcutsSet
    let v4 := ∃ k, k ∈ mods ∧ k ∈ p.excludedModKeysSet
    ((r.1 = false ∧ r.2.map (fun e => e.code) = some .MIN_MOD_KEYS_REQUIRED) ↔ v1) ∧
    ((r.1 = false ∧ r.2.map (fun e => e.code) = some .MAX_MOD_KEYS_EXCEEDED)
      ↔ (¬v1 ∧ v2)) ∧
    ((r.1 = false ∧ r.2.map (fun e => e.code) = some .SHORTCUT_NOT_ALLOWED)
      ↔ (¬v1 ∧ ¬v2 ∧ v3)) ∧
    ((r.1 = false ∧ r.2.map (fun e => e.code) = some .MOD_KEY_NOT_ALLOWED)
      ↔ (¬v1 ∧ ¬v2 ∧ ¬v3 ∧ v4)) ∧
    (r.1 = false ↔ (v1 ∨ v2 ∨ v3 ∨ v4 ∨ nonMod = "")) := by
  intro p r v1 v2 v3 v4
  show _ ∧ _ ∧ _ ∧ _ ∧ _
  unfold r isValidShortcut
  by_cases h1 : (mods.length : Int) < p.minModKeys
  · simp [v1, v2, v3, v4, h1, getFormattedError]
  · by_cases h2 : (mods.length : Int) > p.maxModKeys
    · simp [v1, v2, v3, v4, h1, h2, getFormattedError]
    · by_cases h3 : String.join (getOrderedKeys nonMod mods) ∈ p.excludedShortcutsSet
      · simp [v1, v2, v3, v4, h1, h2, h3, getFormattedError]
      · cases hf : mods.find? (fun key => p.excludedModKeysSet.contains key) with
        | some k =>
          have hv4 : ∃ k, k ∈ mods ∧ k ∈ p.excludedModKeysSet :=
            ⟨k, List.mem_of_find?_eq_some hf, by
              simpa using List.find?_some hf⟩
          simp [v1, v2, v3, v4, h1, h2, h3, hf, hv4, getFormattedError]
        | none =>
          have hv4 : ¬∃ k, k ∈ mods ∧ k ∈ p.excludedModKeysSet := by
            rintro ⟨k, hk, hc⟩
            exact absurd hc (by simpa using List.find?_eq_none.mp hf k hk)
          by_cases h5 : nonMod = ""
          · subst h5
            by_cases h6 : "" ∈ p.excludedKeysSet <;>
              simp [v1, v2, v3, v4, h1, h2, h3, h6, hf, hv4, getFormattedError]
          · simp [v1, v2, v3, v4, h1, h2, h3, h5, hf, hv4, getFormattedError]

/-- Claim C6 counterexample: at release-driven finalization with no trigger
key held and all earlier checks passing (default configuration, no active
modifiers), validation fails but no error at all is set, contradicting the
claim that the error field is set to KEY_NOT_ALLOWED in this situation. -/
theorem missing_trigger_sets_no_error :
    (isValidShortcut (compilePolicy {} false) [] "" []).1 = false ∧
    (isValidShortcut (compilePolicy {} false) [] "" []).2 = none := by decide

/-- Claim C6 as amended: when finalization is attempted with no trigger key
and the earlier checks pass, validation fails, and the error is set to
KEY_NOT_ALLOWED (with an empty keycode parameter) only when the empty string
is itself in the compiled excluded-key set; otherwise no error is set. -/
theorem missing_trigger_amended (p : Policy) (mods sh : List String)
    (h1 : ¬((mods.length : Int) < p.minModKeys))
    (h2 : ¬((mods.length : Int) > p.maxModKeys))
    (h3 : String.join (getOrderedKeys "" mods) ∉ p.excludedShortcutsSet)
    (h4 : ∀ k ∈ mods, k ∉ p.excludedModKeysSet) :
    (isValidShortcut p mods "" sh).1 = false ∧
    (isValidShortcut p mods "" sh).2 =
      (if "" ∈ p.excludedKeysSet then
        some (getFormattedError .KEY_NOT_ALLOWED [("keycode", "")]) else none) := by
  have hf : mods.find? (fun key => p.excludedModKeysSet.contains key) = none :=
    List.find?_eq_none.mpr (fun x hx => by simpa using h4 x hx)
  unfold isValidShortcut
  rw [hf]
  by_cases h6 : "" ∈ p.excludedKeysSet <;>
    simp [h1, h2, h3, h6, getFormattedError]

/-- Claim C6 witness: the amended statement at the default configuration. -/
theorem missing_trigger_amended_witness :
    (isValidShortcut (compilePolicy {} false) [] "" []).1 = false ∧
    (isValidShortcut (compilePolicy {} false) [] "" []).2 =
      (if "" ∈ (compilePolicy {} false).excludedKeysSet then
        some (getFormattedError .KEY_NOT_ALLOWED [("keycode", "")]) else none) :=
  missing_trigger_amended (compilePolicy {} false) [] []
    (by decide) (by decide) (by decide) (by decide)

/-! Characterization of the excluded-shortcut entry compiler. -/

/-- The running canonical-modifier set collected while scanning an entry. -/
def accMods : List String → List String → List String
  | mods, [] => mods
  | mods, key :: rest =>
    if isModKey key then accMods (jsAdd mods (canonMod key)) rest
    else accMods mods rest

/-- Number of trigger (non-modifier) tokens of an entry. -/
def countNonMod (l : List String) : Nat :=
  (l.filter (fun key => ! isModKey key)).length

/-- True when some modifier token of the entry is scanned at a point where
the already-collected distinct-canonical-modifier count exceeds the maximum
(the moment hook.ts line 50 rejects the entry). -/
def hitsMaxCheck (maxM : Int) : List String → List String → Bool
  | _, [] => false
  | mods, key :: rest =>
    if isModKey key then
      decide ((mods.length : Int) > maxM)
        || hitsMaxCheck maxM (jsAdd mods (canonMod key)) rest
    else hitsMaxCheck maxM mods rest

/-- The last trigger token of an entry (the value of `nonModKey` after the
scan), starting from a given current value. -/
def entryTrigger : String → List String → String
  | nk, [] => nk
  | nk, key :: rest =>
    if isModKey key then entryTrigger nk rest else entryTrigger key rest

lemma countNonMod_cons (k : String) (l : List String) :
    countNonMod (k :: l) = (if isModKey k then 0 else 1) + countNonMod l := by
  unfold countNonMod
  rw [List.filter_cons]
  by_cases h : isModKey k <;> simp [h, Nat.add_comm]

lemma accMods_cons (mods : List String) (k : String) (l : List String) :
    accMods mods (k :: l)
      = if isModKey k then accMods (jsAdd mods (canonMod k)) l
        else accMods mods l := rfl

lemma hitsMaxCheck_cons (maxM : Int) (mods : List String) (k : String)
    (l : List String) :
    hitsMaxCheck maxM mods (k :: l)
      = if isModKey k then
          decide ((mods.length : Int) > maxM)
            || hitsMaxCheck maxM (jsAdd mods (canonMod k)) l
        else hitsMaxCheck maxM mods l := rfl

lemma compileEntryGo_nil (exMods exKeys : List String) (minM maxM : Int)
    (n : Nat) (mods : List String) (nk : String) :
    compileEntryGo exMods exKeys minM maxM [] n mods nk
      = if (mods.length : Int) < minM ∨ n ≠ 1 then none
        else some (String.join (getOrderedKeys nk mods)) := rfl

lemma compileEntryGo_cons (exMods exKeys : List String) (minM maxM : Int)
    (key : String) (rest : List String) (n : Nat) (mods : List String)
    (nk : String) :
    compileEntryGo exMods exKeys minM maxM (key :: rest) n mods nk
      = if isModKey key then
          if exMods.contains (canonMod key) ∨ (mods.length : Int) > maxM then none
          else compileEntryGo exMods exKeys minM maxM rest n
            (jsAdd mods (canonMod key)) nk
        else
          if exKeys.contains key ∨ n + 1 > 1 then none
          else compileEntryGo exMods exKeys minM maxM rest (n + 1) mods key := rfl

lemma compileEntryGo_none_iff (exMods exKeys : List String) (minM maxM : Int) :
    ∀ (l : List String) (n : Nat) (mods : List String) (nk : String),
      compileEntryGo exMods exKeys minM maxM l n mods nk = none ↔
        ((∃ k ∈ l, isModKey k = true ∧ exMods.contains (canonMod k) = true) ∨
         (∃ k ∈ l, isModKey k = false ∧ exKeys.contains k = true) ∨
         n + countNonMod l ≠ 1 ∨
         ((accMods mods l).length : Int) < minM ∨
         hitsMaxCheck maxM mods l = true)
  | [], n, mods, nk => by
    rw [compileEntryGo_nil]
    by_cases h : (mods.length : Int) < minM ∨ n ≠ 1
    · rw [if_pos h]
      simp only [true_iff]
      rcases h with h | h
      · exact Or.inr (Or.inr (Or.inr (Or.inl (by simpa [accMods] using h))))
      · exact Or.inr (Or.inr (Or.inl (by simpa [countNonMod] using h)))
    · rw [if_neg h]
      push_neg at h
      obtain ⟨h1, h2⟩ := h
      subst h2
      simp [countNonMod, accMods, hitsMaxCheck, h1]
  | key :: rest, n, mods, nk => by
    rw [compileEntryGo_cons]
    by_cases hm : isModKey key
    · rw [if_pos hm]
      by_cases hc : exMods.contains (canonMod key) = true
        ∨ (mods.length : Int) > maxM
      · rw [if_pos hc]
        simp only [true_iff]
        rcases hc with hc | hc
        · exact Or.inl ⟨key, List.mem_cons_self key rest, hm, hc⟩
        · refine Or.inr (Or.inr (Or.inr (Or.inr ?_)))
          rw [hitsMaxCheck_cons, if_pos hm]
          simp [hc]
      · rw [if_neg hc]
        push_neg at hc
        obtain ⟨hc1, hc2⟩ := hc
        have hcd : decide ((mods.length : Int) > maxM) = false := by
          simpa using hc2
        rw [compileEntryGo_none_iff exMods exKeys minM maxM rest n
          (jsAdd mods (canonMod key)) nk]
        have hc1' : canonMod key ∉ exMods := by simpa using hc1
        simp only [List.exists_mem_cons_iff, hm, true_and, countNonMod_cons,
          accMods_cons, hitsMaxCheck_cons, if_true, hcd, Bool.false_or,
          Bool.not_eq_true] at *
        simp [hc1']
    · rw [if_neg hm]
      by_cases hc : exKeys.contains key = true ∨ n + 1 > 1
      · rw [if_pos hc]
        simp only [true_iff]
        rcases hc with hc | hc
        · exact Or.inr (Or.inl ⟨key, List.mem_cons_self key rest,
            (by simpa using hm), hc⟩)
        · refine Or.inr (Or.inr (Or.inl ?_))
          rw [countNonMod_cons]
          simp only [hm, if_neg]
          simp [hm]
          omega
      · rw [if_neg hc]
        push_neg at hc
        obtain ⟨hc1, hc2⟩ := hc
        have hn0 : n = 0 := by omega
        subst hn0
        rw [compileEntryGo_none_iff exMods exKeys minM maxM rest 1 mods key]
        have h3iff : (0 + countNonMod (key :: rest) ≠ 1)
            ↔ (1 + countNonMod rest ≠ 1) := by
          rw [countNonMod_cons]
          simp [hm]
        rw [h3iff]
        have hc1' : key ∉ exKeys := by simpa using hc1
        simp only [List.exists_mem_cons_iff, hm, accMods_cons, hitsMaxCheck_cons,
          if_neg, Bool.not_eq_true] at *
        simp [hm, hc1']

lemma compileEntryGo_some_shape (exMods exKeys : List String) (minM maxM : Int) :
    ∀ (l : List String) (n : Nat) (mods : List String) (nk s : String),
      compileEntryGo exMods exKeys minM maxM l n mods nk = some s →
      s = String.join (getOrderedKeys (entryTrigger nk l) (accMods mods l))
  | [], n, mods, nk, s => by
    rw [compileEntryGo_nil]
    by_cases h : (mods.length : Int) < minM ∨ n ≠ 1
    · rw [if_pos h]
      intro hh
      cases hh
    · rw [if_neg h]
      intro hh
      have hs := Option.some.inj hh
      subst hs
      rfl
  | key :: rest, n, mods, nk, s => by
    rw [compileEntryGo_cons]
    by_cases hm : isModKey key
    · rw [if_pos hm]
      by_cases hc : exMods.contains (canonMod key) = true
        ∨ (mods.length : Int) > maxM
      · rw [if_pos hc]
        intro hh
        cases hh
      · rw [if_neg hc]
        intro hh
        rw [compileEntryGo_some_shape exMods exKeys minM maxM rest n
          (jsAdd mods (canonMod key)) nk s hh]
        simp [entryTrigger, accMods_cons, hm]
    · rw [if_neg hm]
      by_cases hc : exKeys.contains key = true ∨ n + 1 > 1
      · rw [if_pos hc]
        intro hh
        cases hh
      · rw [if_neg hc]
        intro hh
        rw [compileEntryGo_some_shape exMods exKeys minM maxM rest (n + 1)
          mods key s hh]
        simp [entryTrigger, accMods_cons, hm]

/-- A configuration whose excluded-combination entry has one more modifier
than the clamped maximum of 1. -/
def overMaxOpts : ShortcutRecorderOptions :=
  { excludedShortcuts := [["ControlLeft", "ShiftLeft", "KeyA"]], maxModKeys := 1 }

/-- A configuration that excludes all four modifiers while requiring one,
so the degenerate-policy guard fires. -/
def degenerateOpts : ShortcutRecorderOptions :=
  { excludedModKeys := ["Control", "Shift", "Alt", "Meta"], minModKeys := 1 }

/-- The degenerate configuration together with an excluded-combination entry
that references the originally-excluded Control modifier. -/
def degenerateComboOpts : ShortcutRecorderOptions :=
  { excludedModKeys := ["Control", "Shift", "Alt", "Meta"], minModKeys := 1,
    excludedShortcuts := [["ControlLeft", "KeyA"]] }

/-- Claim C2 counterexample: with maxModKeys clamped to 1, the entry
ControlLeft+ShiftLeft+KeyA has two canonical modifiers, outside the range
claimed for surviving entries, yet it is kept in the compiled
excluded-combination set (the max check at hook.ts line 50 runs before the
new modifier is added, so it only fires once the count already exceeds the
maximum). -/
theorem excluded_entry_overmax_survives :
    (compilePolicy overMaxOpts false).maxModKeys = 1 ∧
    ((accMods [] ["ControlLeft", "ShiftLeft", "KeyA"]).length : Int) = 2 ∧
    (compilePolicy overMaxOpts false).excludedShortcutsSet
      = ["ControlShiftKeyA"] := by
  decide

/-- Claim C2 as amended: an excluded-shortcut entry is dropped iff it contains
an excluded modifier, contains an excluded key, does not contain exactly one
trigger token, has fewer canonical modifiers than minModKeys, or scans a
modifier token at a moment when more than maxModKeys distinct canonical
modifiers were already collected (so an entry can keep up to maxModKeys + 1
modifiers); every surviving entry is stored as the canonical ordered
comparison string of its modifier set and last trigger token. -/
theorem excluded_entry_compilation (opts : ShortcutRecorderOptions)
    (entry : List String) :
    (compileEntry (compileExcludedModKeysSet opts) (compileExcludedKeysSet opts)
        (clampMin opts.minModKeys (clampMax opts.maxModKeys))
        (clampMax opts.maxModKeys) entry = none ↔
      ((∃ k ∈ entry, isModKey k = true ∧ canonMod k ∈ compileExcludedModKeysSet opts) ∨
       (∃ k ∈ entry, isModKey k = false ∧ k ∈ compileExcludedKeysSet opts) ∨
       countNonMod entry ≠ 1 ∨
       ((accMods [] entry).length : Int)
          < clampMin opts.minModKeys (clampMax opts.maxModKeys) ∨
       hitsMaxCheck (clampMax opts.maxModKeys) [] entry = true)) ∧
    (∀ s, compileEntry (compileExcludedModKeysSet opts) (compileExcludedKeysSet opts)
        (clampMin opts.minModKeys (clampMax opts.maxModKeys))
        (clampMax opts.maxModKeys) entry = some s →
      s = String.join (getOrderedKeys (entryTrigger "" entry) (accMods [] entry))) := by
  constructor
  · rw [compileEntry, compileEntryGo_none_iff]
    simp [List.elem_iff]
  · intro s hs
    exact compileEntryGo_some_shape _ _ _ _ entry 0 [] "" s hs

/-- Claim C2 witness: a surviving entry and its stored comparison string. -/
theorem excluded_entry_compilation_witness :
    "ShiftKeyA" = String.join (getOrderedKeys
      (entryTrigger "" ["ShiftLeft", "KeyA"]) (accMods [] ["ShiftLeft", "KeyA"])) :=
  (excluded_entry_compilation { excludedShortcuts := [["ShiftLeft", "KeyA"]] }
    ["ShiftLeft", "KeyA"]).2 "ShiftKeyA" (by decide)

/-- Claim C8: compilation always produces a usable policy (the clamped bounds
satisfy 0 ≤ min ≤ max ≤ 4), and whenever excluding the configured modifiers
would leave fewer usable modifier slots than minModKeys, the compiled
excluded-modifier set is discarded entirely. -/
theorem degenerate_policy_guard (opts : ShortcutRecorderOptions) (mac : Bool) :
    (0 ≤ (compilePolicy opts mac).minModKeys ∧
      (compilePolicy opts mac).minModKeys ≤ (compilePolicy opts mac).maxModKeys ∧
      (compilePolicy opts mac).maxModKeys ≤ 4) ∧
    ((MOD_KEYS_ORDER.length : Int) - ((compileExcludedModKeysSet opts).length : Int)
        < clampMin opts.minModKeys (clampMax opts.maxModKeys) →
      (compilePolicy opts mac).excludedModKeysSet = []) := by
  constructor
  · show 0 ≤ clampMin opts.minModKeys (clampMax opts.maxModKeys)
      ∧ clampMin opts.minModKeys (clampMax opts.maxModKeys)
          ≤ clampMax opts.maxModKeys
      ∧ clampMax opts.maxModKeys ≤ 4
    unfold clampMin clampMax
    split_ifs <;> omega
  · intro h
    show (if (MOD_KEYS_ORDER.length : Int)
        - ((compileExcludedModKeysSet opts).length : Int)
        < clampMin opts.minModKeys (clampMax opts.maxModKeys) then []
      else compileExcludedModKeysSet opts) = []
    rw [if_pos h]

/-- Claim C8 witness: excluding all four modifiers with minModKeys = 1. -/
theorem degenerate_policy_guard_witness :
    (compilePolicy degenerateOpts false).excludedModKeysSet = [] :=
  (degenerate_policy_guard degenerateOpts false).2 (by decide)

/-- Claim C10: the excluded-combination set is compiled from the pre-guard
excluded-modifier set, so when the degenerate-policy guard fires, the live
excluded-modifier set is cleared while combination entries that reference an
originally-excluded modifier were still dropped. -/
theorem shortcut_set_precompiled (opts : ShortcutRecorderOptions) (mac : Bool)
    (hguard : (MOD_KEYS_ORDER.length : Int)
        - ((compileExcludedModKeysSet opts).length : Int)
        < clampMin opts.minModKeys (clampMax opts.maxModKeys)) :
    (compilePolicy opts mac).excludedModKeysSet = [] ∧
    (compilePolicy opts mac).excludedShortcutsSet
      = opts.excludedShortcuts.flatMap (fun entry =>
          (compileEntry (compileExcludedModKeysSet opts)
            (compileExcludedKeysSet opts)
            (clampMin opts.minModKeys (clampMax opts.maxModKeys))
            (clampMax opts.maxModKeys) entry).toList) ∧
    (∀ entry ∈ opts.excludedShortcuts,
      (∃ k ∈ entry, isModKey k = true
          ∧ canonMod k ∈ compileExcludedModKeysSet opts) →
      compileEntry (compileExcludedModKeysSet opts) (compileExcludedKeysSet opts)
        (clampMin opts.minModKeys (clampMax opts.maxModKeys))
        (clampMax opts.maxModKeys) entry = none) := by
  refine ⟨?_, rfl, ?_⟩
  · show (if (MOD_KEYS_ORDER.length : Int)
        - ((compileExcludedModKeysSet opts).length : Int)
        < clampMin opts.minModKeys (clampMax opts.maxModKeys) then []
      else compileExcludedModKeysSet opts) = []
    rw [if_pos hguard]
  · intro entry _ hex
    rw [compileEntry, compileEntryGo_none_iff]
    obtain ⟨k, hk, hmk, hcan⟩ := hex
    exact Or.inl ⟨k, hk, hmk, List.elem_eq_true_of_mem hcan⟩

/-- Claim C10 witness: all four modifiers excluded with minModKeys = 1, and a
combination entry referencing the originally-excluded Control modifier. -/
theorem shortcut_set_precompiled_witness :
    (compilePolicy degenerateComboOpts false).excludedModKeysSet = [] ∧
    compileEntry (compileExcludedModKeysSet degenerateComboOpts)
      (compileExcludedKeysSet degenerateComboOpts)
      (clampMin degenerateComboOpts.minModKeys
        (clampMax degenerateComboOpts.maxModKeys))
      (clampMax degenerateComboOpts.maxModKeys) ["ControlLeft", "KeyA"] = none :=
  ⟨(shortcut_set_precompiled degenerateComboOpts false (by decide)).1,
   (shortcut_set_precompiled degenerateComboOpts false (by decide)).2.2
     ["ControlLeft", "KeyA"] (by decide) (by decide)⟩

/-- The policy of the excluded-combination scenario used as counterexample. -/
def comboPolicy : Policy :=
  compilePolicy { excludedShortcuts := [["Space", "Alt", "Control"]] } false

/-- Recording Alt, Space, Control and releasing Space under `comboPolicy`. -/
def comboRun : RecorderState :=
  handleKeyUp comboPolicy
    (handleKeyDown comboPolicy
      (handleKeyDown comboPolicy
        (handleKeyDown comboPolicy (startRecording initialState) "AltLeft")
        "Space")
      "ControlLeft")
    "Space"

/-- Claim C3 counterexample: a release-driven finalization that fails (with
SHORTCUT_NOT_ALLOWED) does not discard the in-progress attempt: the displayed
shortcut and the active modifier set are not cleared; only the trigger slot
is. -/
theorem failed_finalization_keeps_shortcut :
    comboRun.error.code = .SHORTCUT_NOT_ALLOWED ∧
    comboRun.isRecording = true ∧
    comboRun.savedShortcut = [] ∧
    comboRun.shortcut = ["Control", "Alt", "Space"] ∧
    comboRun.activeModKeys = ["Alt", "Control"] ∧
    comboRun.activeNonModKey = "" := by
  decide

/-- Claim C3 as amended: when a release of the trigger key causes finalization
to be attempted and validation fails, only the trigger slot is cleared; the
recorder stays recording, savedShortcut is unchanged, the active modifier set
is unchanged, the error becomes the validation error when one was set, and the
displayed shortcut is recomputed from the still-held keys (so it empties
exactly when no modifier is held and no trigger was pending, as in the
minModKeys = 1 lone-trigger scenario, which yields MIN_MOD_KEYS_REQUIRED and
an empty shortcut). -/
theorem failed_finalization_frame (p : Policy) (s : RecorderState) (k : String)
    (hrec : s.isRecording = true) (hk0 : k ≠ "") (hesc : k ≠ "Escape")
    (hmod : isModKey k = false) (hex : k ∉ p.excludedKeysSet)
    (hprev : s.activeNonModKey = "" ∨ s.activeNonModKey = k)
    (hsh : s.shortcut ≠ [])
    (hfail : (isValidShortcut p s.activeModKeys s.activeNonModKey s.shortcut).1
      = false) :
    (handleKeyUp p s k).activeNonModKey = "" ∧
    (handleKeyUp p s k).isRecording = true ∧
    (handleKeyUp p s k).savedShortcut = s.savedShortcut ∧
    (handleKeyUp p s k).activeModKeys = s.activeModKeys ∧
    (handleKeyUp p s k).error
      = ((isValidShortcut p s.activeModKeys s.activeNonModKey s.shortcut).2.getD
          s.error) ∧
    (handleKeyUp p s k).shortcut
      = (if s.activeModKeys = [] ∧ s.activeNonModKey = "" then []
         else getOrderedKeys s.activeNonModKey s.activeModKeys) := by
  have hexb : p.excludedKeysSet.contains k = false := by
    simpa using hex
  have hprevb : (s.activeNonModKey == "" || s.activeNonModKey == k) = true := by
    rcases hprev with h | h <;> simp [h]
  have hshb : s.shortcut.isEmpty = false := by
    simpa [List.isEmpty_iff] using hsh
  rcases hv : isValidShortcut p s.activeModKeys s.activeNonModKey s.shortcut
    with ⟨b, errOpt⟩
  rw [hv] at hfail
  simp only at hfail
  subst hfail
  unfold handleKeyUp keyUpModsPhase keyUpNonModPhase
  simp only [hrec, hk0, hesc, hmod, hexb, hprevb, hshb, hv, Bool.not_true,
    Bool.not_false, Bool.false_and, Bool.true_and, Bool.and_self,
    Bool.and_true, if_false, if_true, ite_false, ite_true, if_neg hk0,
    if_neg hesc]
  by_cases hu : s.activeModKeys.isEmpty = true ∧ s.activeNonModKey = ""
  · have hm0 : s.activeModKeys = [] := by
      simpa [List.isEmpty_iff] using hu.1
    cases errOpt with
    | none =>
      simp [updateShortcutFromActiveKeys, hu, resetRecordingEffs, applyEffs,
        applyEff, hm0, hu.2, hrec]
    | some e =>
      simp [updateShortcutFromActiveKeys, hu, resetRecordingEffs, applyEffs,
        applyEff, hm0, hu.2, hrec]
  · have hu' : ¬(s.activeModKeys = [] ∧ s.activeNonModKey = "") := by
      simpa [List.isEmpty_iff] using hu
    cases errOpt with
    | none =>
      simp [updateShortcutFromActiveKeys, hu, hu', applyEffs, applyEff, hrec]
    | some e =>
      simp [updateShortcutFromActiveKeys, hu, hu', applyEffs, applyEff, hrec]

/-- The minModKeys = 1 policy of the lone-trigger scenario. -/
def minOnePolicy : Policy := compilePolicy { minModKeys := 1 } false

/-- The state after starting to record and pressing the lone trigger KeyA. -/
def loneTriggerState : RecorderState :=
  handleKeyDown minOnePolicy (startRecording initialState) "KeyA"

/-- Claim C3 witness: releasing the lone trigger key with minModKeys = 1;
the validation error is MIN_MOD_KEYS_REQUIRED and (the modifier set and
pending trigger being empty) the resulting shortcut is empty. -/
theorem failed_finalization_frame_witness :
    (handleKeyUp minOnePolicy loneTriggerState "KeyA").activeNonModKey = "" ∧
    (handleKeyUp minOnePolicy loneTriggerState "KeyA").isRecording = true ∧
    (handleKeyUp minOnePolicy loneTriggerState "KeyA").savedShortcut
      = loneTriggerState.savedShortcut ∧
    (handleKeyUp minOnePolicy loneTriggerState "KeyA").activeModKeys
      = loneTriggerState.activeModKeys ∧
    (handleKeyUp minOnePolicy loneTriggerState "KeyA").error
      = ((isValidShortcut minOnePolicy loneTriggerState.activeModKeys
          loneTriggerState.activeNonModKey loneTriggerState.shortcut).2.getD
            loneTriggerState.error) ∧
    (handleKeyUp minOnePolicy loneTriggerState "KeyA").shortcut
      = (if loneTriggerState.activeModKeys = []
            ∧ loneTriggerState.activeNonModKey = "" then []
         else getOrderedKeys loneTriggerState.activeNonModKey
           loneTriggerState.activeModKeys) :=
  failed_finalization_frame minOnePolicy loneTriggerState "KeyA"
    (by decide) (by decide) (by decide) (by decide) (by decide) (by decide)
    (by decide) (by decide)

/-- True for every set call except `setSavedShortcut`. -/
def noSavedEff : Eff → Bool
  | .setSavedShortcut _ => false
  | _ => true

lemma applyEffs_saved_of_noSaved :
    ∀ (effs : List Eff) (s : RecorderState), effs.all noSavedEff = true →
      (applyEffs s effs).savedShortcut = s.savedShortcut
  | [], s, _ => rfl
  | e :: effs, s, h => by
    simp only [List.all_cons, Bool.and_eq_true] at h
    show (applyEffs (applyEff s e) effs).savedShortcut = s.savedShortcut
    rw [applyEffs_saved_of_noSaved effs (applyEff s e) h.2]
    cases e <;> first
      | rfl
      | exact absurd h.1 (by simp [noSavedEff])

lemma applyEffs_append (s : RecorderState) (effs1 effs2 : List Eff) :
    applyEffs s (effs1 ++ effs2) = applyEffs (applyEffs s effs1) effs2 :=
  List.foldl_append ..

lemma updateShortcut_noSaved (m : List String) (nk : String) :
    (updateShortcutFromActiveKeys m nk).all noSavedEff = true := by
  unfold updateShortcutFromActiveKeys resetRecordingEffs
  split_ifs <;> rfl

lemma keyDownModsPhase_noSaved (p : Policy) (s : RecorderState) (k : String) :
    ((keyDownModsPhase p s k).2).all noSavedEff = true := by
  unfold keyDownModsPhase
  by_cases h1 : isModKey k <;>
    by_cases h2 : canonMod k ∈ p.excludedModKeysSet <;>
    by_cases h3 : (s.activeModKeys.length : Int) ≥ p.maxModKeys <;>
    simp [h1, h2, h3, List.all_append, updateShortcut_noSaved, noSavedEff]

lemma keyDownNonModPhase_noSaved (p : Policy) (s : RecorderState) (k : String) :
    ((keyDownNonModPhase p s k).2).all noSavedEff = true := by
  unfold keyDownNonModPhase
  by_cases h1 : isModKey k <;>
    by_cases h2 : k ∈ p.excludedKeysSet <;>
    simp [h1, h2, List.all_append, updateShortcut_noSaved, noSavedEff]

/-- Claim C9: savedShortcut changes only on a successful finalization (where
it becomes the ordered shortcut that was being displayed) or on
clearLastRecording (where it becomes empty); no press, no release with failed
or unattempted finalization, and none of startRecording, stopRecording,
resetRecording modify it. -/
theorem saved_shortcut_frame (p : Policy) (s : RecorderState) (k : String) :
    (handleKeyDown p s k).savedShortcut = s.savedShortcut ∧
    ((handleKeyUp p s k).savedShortcut = s.savedShortcut ∨
      ((isValidShortcut p s.activeModKeys s.activeNonModKey s.shortcut).1 = true ∧
        (handleKeyUp p s k).savedShortcut = s.shortcut)) ∧
    (startRecording s).savedShortcut = s.savedShortcut ∧
    (stopRecording s).savedShortcut = s.savedShortcut ∧
    (resetRecordingOp s).savedShortcut = s.savedShortcut ∧
    (clearLastRecording s).savedShortcut = [] := by
  refine ⟨?_, ?_, rfl, rfl, rfl, rfl⟩
  · rw [handleKeyDown]
    split_ifs with h1 h2 h3
    · rfl
    · rfl
    · exact applyEffs_saved_of_noSaved stopRecordingEffs s rfl
    · exact applyEffs_saved_of_noSaved _ _ (by
        simp [List.all_append, keyDownModsPhase_noSaved, keyDownNonModPhase_noSaved])
  · rw [handleKeyUp]
    split_ifs with h1 h2 h3
    · exact Or.inl rfl
    · exact Or.inl rfl
    · exact Or.inl rfl
    · rcases hv : isValidShortcut p s.activeModKeys s.activeNonModKey s.shortcut
        with ⟨b, errOpt⟩
      cases b
      · refine Or.inl (applyEffs_saved_of_noSaved _ _ ?_)
        rw [List.all_append, Bool.and_eq_true]
        constructor
        · unfold keyUpModsPhase
          by_cases hk : isModKey k <;>
            by_cases hex : canonMod k ∈ p.excludedModKeysSet <;>
            by_cases hmac : (p.isMac && (canonMod k == "Meta")) = true <;>
            cases errOpt <;>
            simp [hv, hk, hex, hmac, List.all_append, updateShortcut_noSaved,
              noSavedEff]
        · unfold keyUpNonModPhase
          by_cases hk : isModKey k <;>
            by_cases hg1 : k ∈ p.excludedKeysSet <;>
            by_cases hg2 : (s.activeNonModKey == "" || s.activeNonModKey == k)
              = true <;>
            by_cases hg3 : s.shortcut.isEmpty <;>
            cases errOpt <;>
            simp [hv, hk, hg1, hg2, hg3, noSavedEff]
      · by_cases hk : isModKey k
        · have h2eq : keyUpNonModPhase p s k = (s.activeNonModKey, []) := by
            unfold keyUpNonModPhase
            simp [hk]
          by_cases hex : canonMod k ∈ p.excludedModKeysSet
          · refine Or.inl (applyEffs_saved_of_noSaved _ _ ?_)
            rw [List.all_append, Bool.and_eq_true]
            refine ⟨?_, by simp [h2eq]⟩
            unfold keyUpModsPhase
            simp [hk, hex, updateShortcut_noSaved]
          · by_cases hmac : (p.isMac && (canonMod k == "Meta")) = true
            · refine Or.inr ⟨rfl, ?_⟩
              have h1eq : keyUpModsPhase p s k
                  = (s.activeModKeys,
                    Eff.setSavedShortcut s.shortcut :: stopRecordingEffs) := by
                unfold keyUpModsPhase
                simp [hk, hex, hmac, hv]
              rw [h1eq, h2eq]
              simp [applyEffs, applyEff, stopRecordingEffs, resetRecordingEffs]
            · refine Or.inl (applyEffs_saved_of_noSaved _ _ ?_)
              rw [List.all_append, Bool.and_eq_true]
              refine ⟨?_, by simp [h2eq]⟩
              unfold keyUpModsPhase
              simp [hv, hk, hex, hmac, List.all_append, updateShortcut_noSaved]
        · have h1eq : keyUpModsPhase p s k
              = (s.activeModKeys,
                updateShortcutFromActiveKeys s.activeModKeys s.activeNonModKey) := by
            unfold keyUpModsPhase
            simp [hk]
          by_cases hg1 : k ∈ p.excludedKeysSet
          · refine Or.inl (applyEffs_saved_of_noSaved _ _ ?_)
            rw [List.all_append, Bool.and_eq_true]
            refine ⟨by simp [h1eq, updateShortcut_noSaved], ?_⟩
            unfold keyUpNonModPhase
            simp [hk, hg1]
          · by_cases hg2 : (s.activeNonModKey == "" || s.activeNonModKey == k)
              = true
            · by_cases hg3 : s.shortcut.isEmpty
              · refine Or.inl (applyEffs_saved_of_noSaved _ _ ?_)
                rw [List.all_append, Bool.and_eq_true]
                refine ⟨by simp [h1eq, updateShortcut_noSaved], ?_⟩
                unfold keyUpNonModPhase
                simp [hk, hg1, hg2, hg3]
              · refine Or.inr ⟨rfl, ?_⟩
                have h2eq : keyUpNonModPhase p s k
                    = ("", (errOpt.toList.map Eff.setError)
                        ++ (Eff.setSavedShortcut s.shortcut
                          :: stopRecordingEffs)) := by
                  unfold keyUpNonModPhase
                  simp [hk, hg1, hg2, hg3, hv]
                rw [h1eq, h2eq, applyEffs_append]
                cases errOpt <;>
                  simp [applyEffs, applyEff, stopRecordingEffs,
                    resetRecordingEffs]
            · refine Or.inl (applyEffs_saved_of_noSaved _ _ ?_)
              rw [List.all_append, Bool.and_eq_true]
              refine ⟨by simp [h1eq, updateShortcut_noSaved], ?_⟩
              unfold keyUpNonModPhase
              simp [hk, hg1, hg2]
